import Mathlib

/-!
Shallow embedding of `flask_rbac_icdc/rbac.py` (RBAC decorator layer).

The module resolves an account from a request header, validates a role
header against a role/permission policy loaded from YAML configuration,
and either rejects the request (401/403) or invokes the handler with a
validated `Subject`.

Python dictionaries are modelled as association lists of string keys
(Python dicts preserve insertion order and have unique keys); the
dynamically created `Enum("Roles", ...)` is modelled as an association
list of `(memberName, memberValue)` pairs together with a value-lookup
function mirroring `Roles(value)`; HTTP aborts become constructors of an
explicit result type.
-/

namespace FlaskRbac

/-- An RBAC account record: the `RbacAccount` interface exposes `id` and
`name` properties. -/
structure Account where
  id : Int
  name : String
deriving DecidableEq

/-- One resource entry of the policy: `{permissions: [...], filters: {...}}`.
`filters` maps a filter key to a Subject attribute name. -/
structure ResourcePolicy where
  permissions : List String
  filters : List (String × String)
deriving DecidableEq

/-- A role's policy: resource name to `ResourcePolicy`, as in
`policy[role]` of the Python code. -/
abbrev RolePolicy := List (String × ResourcePolicy)

/-- The whole `roles:` mapping of the configuration: role name to that
role's resource policies. -/
abbrev PolicyMap := List (String × RolePolicy)

/-- Python `dict` lookup `d[k]`/`d.get(k)` on an association list. -/
def alistLookup {α : Type} (d : List (String × α)) (k : String) : Option α :=
  match d with
  | [] => none
  | p :: rest => if p.1 = k then some p.2 else alistLookup rest k

/-- Python `dict` insertion semantics: assigning to an existing key
replaces its value in place, otherwise the pair is appended. Used to model
the dict comprehension building the roles mapping. -/
def dictInsert (d : List (String × String)) (k v : String) : List (String × String) :=
  match d with
  | [] => [(k, v)]
  | p :: rest => if p.1 = k then (k, v) :: rest else p :: dictInsert rest k v

/-- Python `str.upper()` (ASCII case mapping). -/
def pyUpper (s : String) : String :=
  String.mk (s.data.map Char.toUpper)

/-- `{role.upper(): role for role in self.policy.keys()}` of
`RBAC.load_config`: the member name is the uppercased key, the member
value is the original key; a duplicate uppercased name overwrites. -/
def buildRoles (keys : List String) : List (String × String) :=
  keys.foldl (fun acc k => dictInsert acc (pyUpper k) k) []

/-- Python `Roles(value)` on the dynamically built enum: look a member up
by its VALUE (the original configuration key); `none` models the
`ValueError` raised when no member has that value. -/
def enumLookup (roles : List (String × String)) (v : String) : Option (String × String) :=
  roles.find? (fun p => p.2 = v)

/-- A parsed configuration document; `roles` is the value of the
top-level `"roles"` key when present (`config.get("roles", {})`). -/
structure ConfigDoc where
  roles : Option PolicyMap
deriving DecidableEq

/-- Outcome of `RBAC.load_config`: either the policy with the derived
roles enum, or the `FileNotFoundError` raised for a missing path. -/
inductive LoadResult
  | ok (policy : PolicyMap) (roles : List (String × String))
  | fileNotFound (msg : String)
deriving DecidableEq

/-- `RBAC.load_config` over an abstract filesystem `fs` (`none` models a
path for which `os.path.exists` is false). -/
def loadConfig (fs : String → Option ConfigDoc) (configPath : String) : LoadResult :=
  match fs configPath with
  | none => .fileNotFound ("RBAC config file not found: " ++ configPath)
  | some doc =>
    let policy := doc.roles.getD []
    .ok policy (buildRoles (policy.map Prod.fst))

/-- The `Subject` of `rbac.py`: account reference, denormalized copies of
`account.id` and `account.name`, the resolved role enum member (its name
and value), the owner header, and the role's policy. -/
structure Subject where
  account : Account
  account_id : Int
  account_name : String
  role_name : String
  role_value : String
  owner : Option String
  policy : RolePolicy
deriving DecidableEq

/-- `Subject.__init__(account, role, owner, policy)`. -/
def mkSubject (account : Account) (roleName roleValue : String)
    (owner : Option String) (policy : RolePolicy) : Subject :=
  { account := account
    account_id := account.id
    account_name := account.name
    role_name := roleName
    role_value := roleValue
    owner := owner
    policy := policy }

/-- A value held by a Subject attribute, as observed through `getattr`. -/
inductive AttrVal
  | accountV (a : Account)
  | intV (n : Int)
  | strV (s : String)
  | optStrV (s : Option String)
  | roleV (name value : String)
  | policyV (p : RolePolicy)
deriving DecidableEq

/-- `getattr(self, name)` on a `Subject`: the closed set of attributes set
by `Subject.__init__`; `none` models the `AttributeError` raised for an
unknown name. -/
def Subject.getattr (s : Subject) (attr : String) : Option AttrVal :=
  if attr = "account" then some (.accountV s.account)
  else if attr = "account_id" then some (.intV s.account_id)
  else if attr = "account_name" then some (.strV s.account_name)
  else if attr = "role" then some (.roleV s.role_name s.role_value)
  else if attr = "owner" then some (.optStrV s.owner)
  else if attr = "policy" then some (.policyV s.policy)
  else none

/-- The dict comprehension of `Subject.filters`: produce
`key: getattr(self, value)` for each `(key, value)` item in order; `none`
models the `AttributeError` raised for an unknown attribute name. -/
def Subject.filtersAux (s : Subject) : List (String × String) → Option (List (String × AttrVal))
  | [] => some []
  | p :: rest =>
    match s.getattr p.2, Subject.filtersAux s rest with
    | some v, some l => some ((p.1, v) :: l)
    | _, _ => none

/-- `Subject.filters(object_name)`: the dict comprehension over
`policy[object_name]["filters"]`; `none` models the `KeyError` for an
object absent from the policy or the `AttributeError` for an unknown
attribute name. -/
def Subject.filters (s : Subject) (objectName : String) : Option (List (String × AttrVal)) :=
  match alistLookup s.policy objectName with
  | none => none
  | some rp => Subject.filtersAux s rp.filters

/-- `action.rsplit(".", 1)` restricted to lists of characters: split at
the LAST occurrence of `sep`; `none` when `sep` does not occur. -/
def rsplitLast (sep : Char) : List Char → Option (List Char × List Char)
  | [] => none
  | c :: rest =>
    match rsplitLast sep rest with
    | some p => some (c :: p.1, p.2)
    | none => if c = sep then some ([], rest) else none

/-- `requested_object, requested_permission = action.rsplit(".", 1)`:
`none` models the `ValueError` raised by unpacking when the action
contains no "." separator. -/
def rsplitDot (s : String) : Option (String × String) :=
  (rsplitLast '.' s.data).map (fun p => (String.mk p.1, String.mk p.2))

/-- Outcome of `RBAC._check_permission`: fall through, `abort(403, ...)`,
or the uncaught `ValueError` from unpacking a separator-free action. -/
inductive PermCheck
  | ok
  | forbidden (msg : String)
  | valueError
deriving DecidableEq

/-- The 403 message `f"Access to {action} forbidden for role {subject.role.name}"`. -/
def forbiddenMsg (action roleName : String) : String :=
  "Access to " ++ action ++ " forbidden for role " ++ roleName

/-- `RBAC._check_permission(subject, action)`. -/
def checkPermission (subject : Subject) (action : String) : PermCheck :=
  match rsplitDot action with
  | none => .valueError
  | some (requestedObject, requestedPermission) =>
    match alistLookup subject.policy requestedObject with
    | none => .forbidden (forbiddenMsg action subject.role_name)
    | some rp =>
      if requestedPermission ∈ rp.permissions then .ok
      else .forbidden (forbiddenMsg action subject.role_name)

/-- The three request headers read by `RBAC.allow`'s wrapper:
`x-auth-account`, `x-auth-role`, `x-auth-user` (`headers.get` returns
`None` for an absent header). -/
structure RequestCtx where
  accountName : Option String
  roleToken : Option String
  owner : Option String
deriving DecidableEq

/-- Outcome of one run of the wrapped handler: handler invoked with the
subject, `abort(401, msg)`, `abort(403, msg)`, or an uncaught exception
(`err`, surfacing as a 500). -/
inductive AuthResult
  | ok (subject : Subject)
  | unauth (msg : String)
  | forbidden (msg : String)
  | err
deriving DecidableEq

/-- Python truthiness test `not x` for an optional string: true for
`None` and for the empty string. -/
def pyFalsy : Option String → Bool
  | none => true
  | some s => s = ""

/-- The state an `RBAC` instance carries into `allow`: the roles enum and
policy produced by `load_config`, and the `use_operator_group` flag. -/
structure RbacConfig where
  roles : List (String × String)
  policy : PolicyMap
  useOperatorGroup : Bool

/-- The role value fed to `Roles(...)`: `account.subject_role(role_name)`
when `use_operator_group` is set, the raw header value otherwise. A
`.error msg` models `PermissionException(msg)` raised by `subject_role`. -/
def resolveRoleValue (cfg : RbacConfig) (subjectRole : Account → String → Except String String)
    (account : Account) (roleName : String) : Except String String :=
  if cfg.useOperatorGroup then subjectRole account roleName else .ok roleName

/-- The body of `RBAC.allow(action)`'s `wrap`: the per-request
authorization protocol. `getByName` models `account_model.get_by_name`
and `subjectRole` models `account.subject_role`. -/
def authorize (cfg : RbacConfig) (getByName : String → Option Account)
    (subjectRole : Account → String → Except String String)
    (ctx : RequestCtx) (action : String) : AuthResult :=
  if pyFalsy ctx.accountName then
    .unauth "Account name is required in x-auth-account header."
  else
    match getByName (ctx.accountName.getD "") with
    | none => .unauth "Invalid auth parameters. Account name is not found."
    | some account =>
      if pyFalsy ctx.roleToken then
        .unauth "Role name is required in x-auth-role header."
      else
        match resolveRoleValue cfg subjectRole account (ctx.roleToken.getD "") with
        | .error msg => .forbidden msg
        | .ok v =>
          match enumLookup cfg.roles v with
          | none => .unauth "Invalid auth parameters. Role name is not found."
          | some member =>
            let policy := (alistLookup cfg.policy member.2).getD []
            let subject := mkSubject account member.1 member.2 ctx.owner policy
            match checkPermission subject action with
            | .ok => .ok subject
            | .forbidden msg => .forbidden msg
            | .valueError => .err

/-! Concrete sample inputs, following the scenario of the configuration
format: role `admin`, resource `users`, permissions `read`/`write`,
filter `owner_id: owner`. -/

/-- Sample account, as returned by an account model. -/
def sampleAccount : Account := ⟨1, "alice"⟩

/-- Sample resource entry for `users`. -/
def sampleRP : ResourcePolicy := ⟨["read", "write"], [("owner_id", "owner")]⟩

/-- Sample `roles:` mapping with the single role `admin`. -/
def samplePolicy : PolicyMap := [("admin", [("users", sampleRP)])]

/-- Sample RBAC state with operator-group indirection disabled. -/
def sampleCfg : RbacConfig := ⟨buildRoles ["admin"], samplePolicy, false⟩

/-- Sample RBAC state with operator-group indirection enabled. -/
def sampleCfgOp : RbacConfig := ⟨buildRoles ["admin"], samplePolicy, true⟩

/-- Sample account model: only `alice` exists. -/
def sampleGetByName : String → Option Account :=
  fun n => if n = "alice" then some sampleAccount else none

/-- Sample `subject_role` implementation that accepts every token
unchanged. -/
def sampleSubjectRole : Account → String → Except String String :=
  fun _ s => Except.ok s

/-- Sample `subject_role` implementation that raises
`PermissionException("boom")` on every token. -/
def raisingSubjectRole : Account → String → Except String String :=
  fun _ _ => Except.error "boom"

/-- Sample request headers: account `alice`, role `admin`, owner `bob`. -/
def sampleCtx : RequestCtx := ⟨some "alice", some "admin", some "bob"⟩

/-- The subject built by a successful sample request. -/
def sampleSubject : Subject :=
  mkSubject sampleAccount "ADMIN" "admin" (some "bob") [("users", sampleRP)]

/-- A parsed configuration document whose `roles` mapping is empty. -/
def emptyDoc : ConfigDoc := ⟨some []⟩

/-- A filesystem holding only `rbac.yaml`, with an empty `roles` mapping. -/
def emptyFs : String → Option ConfigDoc :=
  fun p => if p = "rbac.yaml" then some emptyDoc else none

/-- The RBAC state resulting from loading an empty `roles` mapping. -/
def emptyCfg : RbacConfig := ⟨[], [], true⟩

/-! Helper lemmas about the embedded operations. -/

/-- `rsplitLast` finds nothing when the separator does not occur. -/
theorem rsplitLast_eq_none (sep : Char) (l : List Char) (h : sep ∉ l) :
    rsplitLast sep l = none := by
  induction l with
  | nil => rfl
  | cons c rest ih =>
    have hc : ¬(c = sep) := fun hc => h (hc ▸ List.mem_cons_self c rest)
    have hr : sep ∉ rest := fun hm => h (List.mem_cons_of_mem c hm)
    simp [rsplitLast, ih hr, hc]

/-- `rsplitLast` splits at the last occurrence of the separator. -/
theorem rsplitLast_append_last (sep : Char) (a b : List Char) (hb : sep ∉ b) :
    rsplitLast sep (a ++ sep :: b) = some (a, b) := by
  induction a with
  | nil => simp [rsplitLast, rsplitLast_eq_none sep b hb]
  | cons c rest ih => simp [rsplitLast, ih]

/-- String form: an action `o ++ "." ++ p` with a dot-free permission
splits into `(o, p)`. -/
theorem rsplitDot_append (o p : String) (hp : '.' ∉ p.data) :
    rsplitDot (o ++ "." ++ p) = some (o, p) := by
  unfold rsplitDot
  have hdata : (o ++ "." ++ p).data = o.data ++ '.' :: p.data := by
    simp [String.data_append]
  rw [hdata, rsplitLast_append_last _ _ _ hp]
  cases o; cases p; rfl

/-- An action with no dot at all does not split. -/
theorem rsplitDot_eq_none (s : String) (h : '.' ∉ s.data) :
    rsplitDot s = none := by
  unfold rsplitDot
  rw [rsplitLast_eq_none _ _ h]
  rfl

/-- Membership after a dict insertion: either an old pair or the new one. -/
theorem mem_dictInsert {d : List (String × String)} {k v : String}
    {q : String × String} (h : q ∈ dictInsert d k v) : q ∈ d ∨ q = (k, v) := by
  induction d with
  | nil => exact Or.inr (by simpa [dictInsert] using h)
  | cons p rest ih =>
    by_cases hpk : p.1 = k
    · simp only [dictInsert, hpk, if_true] at h
      rcases List.mem_cons.mp h with h | h
      · exact Or.inr h
      · exact Or.inl (List.mem_cons_of_mem p h)
    · simp only [dictInsert, hpk, if_false] at h
      rcases List.mem_cons.mp h with h | h
      · exact Or.inl (h ▸ List.mem_cons_self p rest)
      · rcases ih h with h | h
        · exact Or.inl (List.mem_cons_of_mem p h)
        · exact Or.inr h

/-- Every pair produced by the roles comprehension, starting from any
accumulator, is an accumulator pair or an `(upper key, key)` pair. -/
theorem mem_foldl_dictInsert (keys : List String) (acc : List (String × String))
    (q : String × String)
    (h : q ∈ keys.foldl (fun a k => dictInsert a (pyUpper k) k) acc) :
    q ∈ acc ∨ (q.1 = pyUpper q.2 ∧ q.2 ∈ keys) := by
  induction keys generalizing acc with
  | nil => exact Or.inl h
  | cons k rest ih =>
    rcases ih (dictInsert acc (pyUpper k) k) h with h1 | h1
    · rcases mem_dictInsert h1 with h2 | h2
      · exact Or.inl h2
      · refine Or.inr ⟨?_, ?_⟩
        · rw [h2]
        · rw [h2]; exact List.mem_cons_self k rest
    · exact Or.inr ⟨h1.1, List.mem_cons_of_mem k h1.2⟩

/-- Every member of the derived roles enum pairs the uppercased form of a
configuration key with that key. -/
theorem mem_buildRoles {keys : List String} {q : String × String}
    (h : q ∈ buildRoles keys) : q.1 = pyUpper q.2 ∧ q.2 ∈ keys := by
  rcases mem_foldl_dictInsert keys [] q h with h1 | h1
  · cases h1
  · exact h1

/-- A successful enum value lookup returns a member whose value is
exactly the string looked up. -/
theorem enumLookup_eq_some {roles : List (String × String)} {v0 : String}
    {m : String × String} (h : enumLookup roles v0 = some m) :
    m.2 = v0 ∧ m ∈ roles := by
  unfold enumLookup at h
  exact ⟨by simpa using List.find?_some h, List.mem_of_find?_eq_some h⟩

/-- A key appearing in an association list is found by lookup. -/
theorem alistLookup_of_mem_keys {α : Type} {d : List (String × α)} {k : String}
    (h : k ∈ d.map Prod.fst) : ∃ a, alistLookup d k = some a := by
  induction d with
  | nil => simp at h
  | cons p rest ih =>
    by_cases hpk : p.1 = k
    · exact ⟨p.2, by simp [alistLookup, hpk]⟩
    · have hk : k ∈ rest.map Prod.fst := by
        rcases List.mem_map.mp h with ⟨q, hq, hqk⟩
        rcases List.mem_cons.mp hq with hq1 | hq1
        · exact absurd (hq1 ▸ hqk) hpk
        · exact List.mem_map.mpr ⟨q, hq1, hqk⟩
      rcases ih hk with ⟨a, ha⟩
      exact ⟨a, by simp [alistLookup, hpk, ha]⟩

/-- Updating the `owner` attribute changes `getattr` only at `"owner"`. -/
theorem getattr_set_owner (s : Subject) (w : Option String) (attr : String) :
    Subject.getattr { s with owner := w } attr =
      if attr = "owner" then some (.optStrV w) else Subject.getattr s attr := by
  unfold Subject.getattr
  split_ifs <;> simp_all

/-- The filters comprehension succeeds and maps each attribute name
through its current value when every named attribute exists. -/
theorem filtersAux_eq_map (s : Subject) (l : List (String × String))
    (g : String → AttrVal)
    (hg : ∀ p ∈ l, Subject.getattr s p.2 = some (g p.2)) :
    Subject.filtersAux s l = some (l.map (fun p => (p.1, g p.2))) := by
  induction l with
  | nil => rfl
  | cons p rest ih =>
    have hp := hg p (List.mem_cons_self p rest)
    have hr : ∀ q ∈ rest, Subject.getattr s q.2 = some (g q.2) :=
      fun q hq => hg q (List.mem_cons_of_mem p hq)
    simp [Subject.filtersAux, hp, ih hr]

/-! Claim theorems. -/

/-- C1: for every policy containing role `r` with resource `o`, and every
request whose account name resolves to an account, whose role token
resolves to the enum member carrying `r`, and whose requested action is
`o.p` with `p` a member of `policy[r][o].permissions`, `authorize`
succeeds: it constructs the Subject from the account, the resolved role,
the owner header from the request context, and the role's policy, returns
it as the handler's subject, and the returned Subject's role is `r`. -/
theorem authorize_success_role (cfg : RbacConfig) (getByName : String → Option Account)
    (subjectRole : Account → String → Except String String) (ctx : RequestCtx)
    (account : Account) (v rname r o p action : String)
    (rpol : RolePolicy) (rp : ResourcePolicy)
    (h1 : pyFalsy ctx.accountName = false)
    (h2 : getByName (ctx.accountName.getD "") = some account)
    (h3 : pyFalsy ctx.roleToken = false)
    (h4 : resolveRoleValue cfg subjectRole account (ctx.roleToken.getD "") = .ok v)
    (h5 : enumLookup cfg.roles v = some (rname, r))
    (h6 : alistLookup cfg.policy r = some rpol)
    (h7 : alistLookup rpol o = some rp)
    (h8 : p ∈ rp.permissions)
    (h9 : action = o ++ "." ++ p)
    (h10 : '.' ∉ p.data) :
    authorize cfg getByName subjectRole ctx action =
      .ok (mkSubject account rname r ctx.owner rpol) ∧
    (mkSubject account rname r ctx.owner rpol).role_value = r := by
  have hsplit : rsplitDot action = some (o, p) := by
    rw [h9]; exact rsplitDot_append o p h10
  refine ⟨?_, rfl⟩
  simp [authorize, h1, h2, h3, h4, h5, h6, checkPermission, hsplit, mkSubject, h7, h8]

/-- C1 witness: the sample request for `users.read` under role `admin`. -/
theorem authorize_success_role_witness :
    authorize sampleCfg sampleGetByName sampleSubjectRole sampleCtx "users.read" =
      .ok (mkSubject sampleAccount "ADMIN" "admin" (some "bob") [("users", sampleRP)]) ∧
    (mkSubject sampleAccount "ADMIN" "admin" (some "bob") [("users", sampleRP)]).role_value = "admin" :=
  authorize_success_role sampleCfg sampleGetByName sampleSubjectRole sampleCtx sampleAccount
    "admin" "ADMIN" "admin" "users" "read" "users.read" [("users", sampleRP)] sampleRP
    (by decide) (by decide) (by decide) rfl (by decide) (by decide) (by decide)
    (by decide) (by decide) (by decide)

/-- C2: for every request that passes account and role resolution, if the
requested object is absent from the resolved role's policy, or the
requested permission is not a member of that object's permission list
(exact, case-sensitive string membership), `authorize` fails with 403 and
in both cases the message is `Access to <action> forbidden for role
<role>`. -/
theorem authorize_forbidden_permission (cfg : RbacConfig) (getByName : String → Option Account)
    (subjectRole : Account → String → Except String String) (ctx : RequestCtx)
    (account : Account) (v rname rvalue action obj perm : String)
    (h1 : pyFalsy ctx.accountName = false)
    (h2 : getByName (ctx.accountName.getD "") = some account)
    (h3 : pyFalsy ctx.roleToken = false)
    (h4 : resolveRoleValue cfg subjectRole account (ctx.roleToken.getD "") = .ok v)
    (h5 : enumLookup cfg.roles v = some (rname, rvalue))
    (hsplit : rsplitDot action = some (obj, perm))
    (hfail : ∀ rp, alistLookup ((alistLookup cfg.policy rvalue).getD []) obj = some rp →
      perm ∉ rp.permissions) :
    authorize cfg getByName subjectRole ctx action =
      .forbidden (forbiddenMsg action rname) := by
  cases hrp : alistLookup ((alistLookup cfg.policy rvalue).getD []) obj with
  | none =>
    simp [authorize, h1, h2, h3, h4, h5, checkPermission, hsplit, mkSubject, hrp]
  | some rp =>
    have hnp := hfail rp hrp
    simp [authorize, h1, h2, h3, h4, h5, checkPermission, hsplit, mkSubject, hrp, hnp]

/-- C2 witness: role `admin` may `read`/`write` on `users`; the action
`users.Read` differs from the granted `read` only in case and is refused
with the 403 message. -/
theorem authorize_forbidden_permission_witness :
    authorize sampleCfg sampleGetByName sampleSubjectRole sampleCtx "users.Read" =
      .forbidden (forbiddenMsg "users.Read" "ADMIN") :=
  authorize_forbidden_permission sampleCfg sampleGetByName sampleSubjectRole sampleCtx
    sampleAccount "admin" "ADMIN" "admin" "users.Read" "users" "Read"
    (by decide) (by decide) (by decide) rfl (by decide) (by decide)
    (fun rp hrp => by
      have h : sampleRP = rp := Option.some.inj hrp
      rw [← h]; decide)

/-- C3: the checks run in a fixed order and the first failing one decides
the outcome: an absent (falsy) account name yields 401 `account name
required` whatever the account model would answer; otherwise a failed
account lookup yields 401 `account not found`; otherwise an absent
(falsy) role token yields 401 `role required`; each of these is an
Unauthenticated outcome, never Forbidden. -/
theorem authorize_check_order (cfg : RbacConfig) (getByName : String → Option Account)
    (subjectRole : Account → String → Except String String) (ctx : RequestCtx)
    (action : String) (account : Account) :
    (pyFalsy ctx.accountName = true →
      authorize cfg getByName subjectRole ctx action =
        .unauth "Account name is required in x-auth-account header.") ∧
    (pyFalsy ctx.accountName = false →
      getByName (ctx.accountName.getD "") = none →
      authorize cfg getByName subjectRole ctx action =
        .unauth "Invalid auth parameters. Account name is not found.") ∧
    (pyFalsy ctx.accountName = false →
      getByName (ctx.accountName.getD "") = some account →
      pyFalsy ctx.roleToken = true →
      authorize cfg getByName subjectRole ctx action =
        .unauth "Role name is required in x-auth-role header.") := by
  refine ⟨fun h1 => ?_, fun h1 h2 => ?_, fun h1 h2 h3 => ?_⟩
  · simp [authorize, h1]
  · simp [authorize, h1, h2]
  · simp [authorize, h1, h2, h3]

/-- C3 witness: the three early failures on sample requests: a missing
account header, an unknown account `carol`, and a missing role header. -/
theorem authorize_check_order_witness :
    authorize sampleCfg sampleGetByName sampleSubjectRole ⟨none, some "admin", none⟩ "users.read" =
      .unauth "Account name is required in x-auth-account header." ∧
    authorize sampleCfg sampleGetByName sampleSubjectRole ⟨some "carol", some "admin", none⟩ "users.read" =
      .unauth "Invalid auth parameters. Account name is not found." ∧
    authorize sampleCfg sampleGetByName sampleSubjectRole ⟨some "alice", none, none⟩ "users.read" =
      .unauth "Role name is required in x-auth-role header." :=
  ⟨(authorize_check_order sampleCfg sampleGetByName sampleSubjectRole
      ⟨none, some "admin", none⟩ "users.read" sampleAccount).1 (by decide),
   (authorize_check_order sampleCfg sampleGetByName sampleSubjectRole
      ⟨some "carol", some "admin", none⟩ "users.read" sampleAccount).2.1 (by decide) (by decide),
   (authorize_check_order sampleCfg sampleGetByName sampleSubjectRole
      ⟨some "alice", none, none⟩ "users.read" sampleAccount).2.2 (by decide) (by decide) (by decide)⟩

/-- C4: during role resolution, with the operator-group flag set the role
token is mapped through `account.subject_role`, and with it unset the raw
token is the role value; a value outside the roles enum yields 401 `role
not found`, and a `PermissionException` from `subject_role` yields 403
with that exception's message. -/
theorem authorize_role_resolution (cfg : RbacConfig) (getByName : String → Option Account)
    (subjectRole : Account → String → Except String String) (ctx : RequestCtx)
    (action : String) (account : Account) (v msg : String)
    (h1 : pyFalsy ctx.accountName = false)
    (h2 : getByName (ctx.accountName.getD "") = some account)
    (h3 : pyFalsy ctx.roleToken = false) :
    (cfg.useOperatorGroup = true →
      resolveRoleValue cfg subjectRole account (ctx.roleToken.getD "") =
        subjectRole account (ctx.roleToken.getD "")) ∧
    (cfg.useOperatorGroup = false →
      resolveRoleValue cfg subjectRole account (ctx.roleToken.getD "") =
        .ok (ctx.roleToken.getD "")) ∧
    (cfg.useOperatorGroup = true →
      subjectRole account (ctx.roleToken.getD "") = .error msg →
      authorize cfg getByName subjectRole ctx action = .forbidden msg) ∧
    (resolveRoleValue cfg subjectRole account (ctx.roleToken.getD "") = .ok v →
      enumLookup cfg.roles v = none →
      authorize cfg getByName subjectRole ctx action =
        .unauth "Invalid auth parameters. Role name is not found.") := by
  refine ⟨fun hop => ?_, fun hop => ?_, fun hop herr => ?_, fun hok hnone => ?_⟩
  · simp [resolveRoleValue, hop]
  · simp [resolveRoleValue, hop]
  · have herr2 : resolveRoleValue cfg subjectRole account (ctx.roleToken.getD "") =
        .error msg := by simp [resolveRoleValue, hop, herr]
    simp [authorize, h1, h2, h3, herr2]
  · simp [authorize, h1, h2, h3, hok, hnone]

/-- C4 witness: with indirection on, a raising `subject_role` turns into
403 `boom`; with indirection off the raw token `ADMIN` is used verbatim,
is not an enum value, and turns into 401 `role not found`. -/
theorem authorize_role_resolution_witness :
    resolveRoleValue sampleCfgOp raisingSubjectRole sampleAccount "admin" =
      raisingSubjectRole sampleAccount "admin" ∧
    resolveRoleValue sampleCfg sampleSubjectRole sampleAccount "ADMIN" = .ok "ADMIN" ∧
    authorize sampleCfgOp sampleGetByName raisingSubjectRole sampleCtx "users.read" =
      .forbidden "boom" ∧
    authorize sampleCfg sampleGetByName sampleSubjectRole
      ⟨some "alice", some "ADMIN", none⟩ "users.read" =
      .unauth "Invalid auth parameters. Role name is not found." :=
  ⟨(authorize_role_resolution sampleCfgOp sampleGetByName raisingSubjectRole sampleCtx
      "users.read" sampleAccount "admin" "boom" (by decide) (by decide) (by decide)).1 rfl,
   (authorize_role_resolution sampleCfg sampleGetByName sampleSubjectRole
      ⟨some "alice", some "ADMIN", none⟩ "users.read" sampleAccount "ADMIN" "boom"
      (by decide) (by decide) (by decide)).2.1 rfl,
   (authorize_role_resolution sampleCfgOp sampleGetByName raisingSubjectRole sampleCtx
      "users.read" sampleAccount "admin" "boom" (by decide) (by decide) (by decide)).2.2.1
      rfl rfl,
   (authorize_role_resolution sampleCfg sampleGetByName sampleSubjectRole
      ⟨some "alice", some "ADMIN", none⟩ "users.read" sampleAccount "ADMIN" "boom"
      (by decide) (by decide) (by decide)).2.2.2 rfl (by decide)⟩

/-- C5 counterexample: the role set derived from key `admin` has the
single member `("ADMIN", "admin")`, and a resolved role value `ADMIN` —
differing from the key only in letter case — does NOT resolve to that
role: `Roles("ADMIN")` raises `ValueError` and `authorize` answers 401
`role not found` instead of succeeding, because `Roles(value)` compares
against the ORIGINAL keys by exact match, not against uppercased forms. -/
theorem roles_uppercase_compare_cex :
    buildRoles ["admin"] = [("ADMIN", "admin")] ∧
    enumLookup (buildRoles ["admin"]) "ADMIN" = none ∧
    authorize sampleCfg sampleGetByName sampleSubjectRole
      ⟨some "alice", some "ADMIN", some "bob"⟩ "users.read" =
      .unauth "Invalid auth parameters. Role name is not found." := by
  decide

/-- C5 amended: each top-level key `k` contributes the enum member
`(upper(k), k)`; a resolved role value is compared against the member
VALUES — the original keys — by case-sensitive exact match, so only the
value equal to `k` itself resolves to `k`'s role; the subsequent policy
lookup for that role uses the original key `k`. -/
theorem roles_exact_value_compare (keys : List String) (cfg : RbacConfig)
    (getByName : String → Option Account)
    (subjectRole : Account → String → Except String String) (ctx : RequestCtx)
    (action : String) (account : Account) (v0 rname rvalue : String)
    (hkeys : cfg.roles = buildRoles keys)
    (h1 : pyFalsy ctx.accountName = false)
    (h2 : getByName (ctx.accountName.getD "") = some account)
    (h3 : pyFalsy ctx.roleToken = false)
    (h4 : resolveRoleValue cfg subjectRole account (ctx.roleToken.getD "") = .ok v0)
    (h5 : enumLookup cfg.roles v0 = some (rname, rvalue)) :
    rvalue = v0 ∧ rname = pyUpper rvalue ∧ rvalue ∈ keys ∧
    authorize cfg getByName subjectRole ctx action =
      (match checkPermission
          (mkSubject account rname rvalue ctx.owner
            ((alistLookup cfg.policy rvalue).getD [])) action with
       | .ok => .ok (mkSubject account rname rvalue ctx.owner
           ((alistLookup cfg.policy rvalue).getD []))
       | .forbidden m => .forbidden m
       | .valueError => .err) := by
  have hmem := enumLookup_eq_some h5
  have hup := mem_buildRoles (hkeys ▸ hmem.2)
  refine ⟨hmem.1, hup.1, hup.2, ?_⟩
  simp [authorize, h1, h2, h3, h4, h5]

/-- C5 amended witness: the exact value `admin` resolves and its policy
is looked up under the original key. -/
theorem roles_exact_value_compare_witness :
    "admin" = "admin" ∧ "ADMIN" = pyUpper "admin" ∧ "admin" ∈ ["admin"] ∧
    authorize sampleCfg sampleGetByName sampleSubjectRole sampleCtx "users.read" =
      (match checkPermission
          (mkSubject sampleAccount "ADMIN" "admin" (some "bob")
            ((alistLookup sampleCfg.policy "admin").getD [])) "users.read" with
       | .ok => .ok (mkSubject sampleAccount "ADMIN" "admin" (some "bob")
           ((alistLookup sampleCfg.policy "admin").getD []))
       | .forbidden m => .forbidden m
       | .valueError => .err) :=
  roles_exact_value_compare ["admin"] sampleCfg sampleGetByName sampleSubjectRole sampleCtx
    "users.read" sampleAccount "admin" "ADMIN" "admin"
    (by decide) (by decide) (by decide) (by decide) rfl (by decide)

/-- C6: for a Subject and a resource present in its policy whose filter
specification names only known Subject attributes, `filters` returns
exactly the declared filter keys, each bound to the value the named
attribute holds at call time; after mutating `owner`, a later `filters`
call sees the new value. -/
theorem subject_filters_live (s : Subject) (o : String) (rp : ResourcePolicy)
    (g : String → AttrVal) (w : Option String)
    (hpol : alistLookup s.policy o = some rp)
    (hg : ∀ p ∈ rp.filters, Subject.getattr s p.2 = some (g p.2)) :
    Subject.filters s o = some (rp.filters.map (fun p => (p.1, g p.2))) ∧
    Subject.filters { s with owner := w } o =
      some (rp.filters.map (fun p =>
        (p.1, if p.2 = "owner" then AttrVal.optStrV w else g p.2))) := by
  constructor
  · unfold Subject.filters
    rw [hpol]
    exact filtersAux_eq_map s rp.filters g hg
  · unfold Subject.filters
    have hpol2 : alistLookup ({ s with owner := w } : Subject).policy o = some rp := hpol
    rw [hpol2]
    have hg2 : ∀ p ∈ rp.filters, Subject.getattr { s with owner := w } p.2 =
        some (if p.2 = "owner" then AttrVal.optStrV w else g p.2) := by
      intro p hp
      rw [getattr_set_owner]
      by_cases h : p.2 = "owner" <;> simp [h, hg p hp]
    exact filtersAux_eq_map { s with owner := w } rp.filters
      (fun a => if a = "owner" then AttrVal.optStrV w else g a) hg2

/-- C6 witness: the sample subject's `users` filters map `owner_id` to
the current owner `bob`, and to `carol` after the owner changes. -/
theorem subject_filters_live_witness :
    Subject.filters sampleSubject "users" =
      some [("owner_id", AttrVal.optStrV (some "bob"))] ∧
    Subject.filters { sampleSubject with owner := some "carol" } "users" =
      some [("owner_id", AttrVal.optStrV (some "carol"))] := by
  have h := subject_filters_live sampleSubject "users" sampleRP
    (fun _ => AttrVal.optStrV (some "bob")) (some "carol") (by decide) (by decide)
  exact ⟨h.1, h.2⟩

/-- C7: the action splits on its LAST dot — `a.b.c` is checked as object
`a.b` with permission `c` — and an action with no dot at all is not a
per-request rejection: it raises an uncaught `ValueError` out of the
unpacking in `_check_permission` (for a request that passed every auth
check), which is neither a 401 nor a 403 outcome. -/
theorem action_no_separator (cfg : RbacConfig) (getByName : String → Option Account)
    (subjectRole : Account → String → Except String String) (ctx : RequestCtx)
    (action : String) (account : Account) (v rname rvalue a b m : String)
    (h1 : pyFalsy ctx.accountName = false)
    (h2 : getByName (ctx.accountName.getD "") = some account)
    (h3 : pyFalsy ctx.roleToken = false)
    (h4 : resolveRoleValue cfg subjectRole account (ctx.roleToken.getD "") = .ok v)
    (h5 : enumLookup cfg.roles v = some (rname, rvalue))
    (hnodot : '.' ∉ action.data)
    (hb : '.' ∉ b.data) :
    rsplitDot action = none ∧
    checkPermission (mkSubject account rname rvalue ctx.owner
      ((alistLookup cfg.policy rvalue).getD [])) action = .valueError ∧
    authorize cfg getByName subjectRole ctx action = .err ∧
    authorize cfg getByName subjectRole ctx action ≠ .unauth m ∧
    authorize cfg getByName subjectRole ctx action ≠ .forbidden m ∧
    rsplitDot (a ++ "." ++ b) = some (a, b) ∧
    rsplitDot "a.b.c" = some ("a.b", "c") := by
  have hnone := rsplitDot_eq_none action hnodot
  have hcp : checkPermission (mkSubject account rname rvalue ctx.owner
      ((alistLookup cfg.policy rvalue).getD [])) action = .valueError := by
    simp [checkPermission, hnone]
  have hauth : authorize cfg getByName subjectRole ctx action = .err := by
    simp [authorize, h1, h2, h3, h4, h5, checkPermission, hnone]
  refine ⟨hnone, hcp, hauth, ?_, ?_, rsplitDot_append a b hb, by decide⟩
  · rw [hauth]; intro hc; cases hc
  · rw [hauth]; intro hc; cases hc

/-- C7 witness: the separator-free action `usersread` on an otherwise
valid sample request raises out of the permission check. -/
theorem action_no_separator_witness :
    rsplitDot "usersread" = none ∧
    checkPermission (mkSubject sampleAccount "ADMIN" "admin" (some "bob")
      ((alistLookup sampleCfg.policy "admin").getD [])) "usersread" = .valueError ∧
    authorize sampleCfg sampleGetByName sampleSubjectRole sampleCtx "usersread" = .err ∧
    authorize sampleCfg sampleGetByName sampleSubjectRole sampleCtx "usersread" ≠
      .unauth "boom" ∧
    authorize sampleCfg sampleGetByName sampleSubjectRole sampleCtx "usersread" ≠
      .forbidden "boom" ∧
    rsplitDot ("a.b" ++ "." ++ "c") = some ("a.b", "c") ∧
    rsplitDot "a.b.c" = some ("a.b", "c") :=
  action_no_separator sampleCfg sampleGetByName sampleSubjectRole sampleCtx "usersread"
    sampleAccount "admin" "ADMIN" "admin" "a.b" "c" "boom"
    (by decide) (by decide) (by decide) rfl (by decide) (by decide) (by decide)

/-- C8 counterexample: loading an empty `roles` mapping succeeds with an
empty role set, but a subsequent `authorize` call is NOT always
Unauthenticated: with operator-group indirection on, a `subject_role`
that raises `PermissionException("boom")` makes the call fail 403
Forbidden before the role set is ever consulted. -/
theorem empty_roles_unauth_cex :
    loadConfig emptyFs "rbac.yaml" = .ok [] [] ∧
    authorize emptyCfg sampleGetByName raisingSubjectRole sampleCtx "users.read" =
      .forbidden "boom" := by
  decide

/-- C8 amended: loading from a missing path fails with the file-not-found
error and no policy; loading an empty `roles` mapping succeeds with an
empty policy and an empty role set; afterwards no `authorize` call ever
succeeds or reaches the permission check: every call fails 401
Unauthenticated, except that a `PermissionException` raised by
`subject_role` (only possible with operator-group indirection on) fails
403 Forbidden with that exception's message. -/
theorem empty_roles_amended (fs : String → Option ConfigDoc) (path : String)
    (doc : ConfigDoc) (cfg : RbacConfig) (getByName : String → Option Account)
    (subjectRole : Account → String → Except String String) (ctx : RequestCtx)
    (action : String)
    (hroles : cfg.roles = []) :
    (fs path = none →
      loadConfig fs path = .fileNotFound ("RBAC config file not found: " ++ path)) ∧
    (fs path = some doc → doc.roles = some [] → loadConfig fs path = .ok [] []) ∧
    ((∃ m, authorize cfg getByName subjectRole ctx action = .unauth m) ∨
     (∃ account m, getByName (ctx.accountName.getD "") = some account ∧
        cfg.useOperatorGroup = true ∧
        subjectRole account (ctx.roleToken.getD "") = .error m ∧
        authorize cfg getByName subjectRole ctx action = .forbidden m)) := by
  refine ⟨fun hmiss => ?_, fun hdoc hempty => ?_, ?_⟩
  · simp [loadConfig, hmiss]
  · simp [loadConfig, hdoc, hempty, buildRoles]
  · by_cases ha : pyFalsy ctx.accountName
    · exact Or.inl ⟨"Account name is required in x-auth-account header.",
        by simp [authorize, ha]⟩
    · rw [Bool.not_eq_true] at ha
      cases hgb : getByName (ctx.accountName.getD "") with
      | none => exact Or.inl ⟨"Invalid auth parameters. Account name is not found.",
          by simp [authorize, ha, hgb]⟩
      | some account =>
        by_cases hr : pyFalsy ctx.roleToken
        · exact Or.inl ⟨"Role name is required in x-auth-role header.",
            by simp [authorize, ha, hgb, hr]⟩
        · rw [Bool.not_eq_true] at hr
          cases hres : resolveRoleValue cfg subjectRole account (ctx.roleToken.getD "") with
          | error m =>
            by_cases hop : cfg.useOperatorGroup
            · have hsr : subjectRole account (ctx.roleToken.getD "") = .error m := by
                rw [← hres]; simp [resolveRoleValue, hop]
              have hauth : authorize cfg getByName subjectRole ctx action =
                  .forbidden m := by
                simp [authorize, ha, hgb, hr, hres]
              exact Or.inr ⟨account, m, rfl, hop, hsr, hauth⟩
            · rw [Bool.not_eq_true] at hop
              rw [resolveRoleValue, hop] at hres
              simp at hres
          | ok vv =>
            have hnone : enumLookup cfg.roles vv = none := by
              rw [hroles]; rfl
            exact Or.inl ⟨"Invalid auth parameters. Role name is not found.",
              by simp [authorize, ha, hgb, hr, hres, hnone]⟩

/-- C8 amended witness: a missing path, the empty-roles load, and the
outcome classification on a sample request against the empty role set. -/
theorem empty_roles_amended_witness :
    loadConfig (fun _ => none) "missing.yaml" =
      .fileNotFound "RBAC config file not found: missing.yaml" ∧
    loadConfig emptyFs "rbac.yaml" = .ok [] [] ∧
    ((∃ m, authorize emptyCfg sampleGetByName sampleSubjectRole sampleCtx "users.read" =
        .unauth m) ∨
     (∃ account m, sampleGetByName (sampleCtx.accountName.getD "") = some account ∧
        emptyCfg.useOperatorGroup = true ∧
        sampleSubjectRole account (sampleCtx.roleToken.getD "") = .error m ∧
        authorize emptyCfg sampleGetByName sampleSubjectRole sampleCtx "users.read" =
          .forbidden m)) :=
  ⟨(empty_roles_amended (fun _ => none) "missing.yaml" emptyDoc emptyCfg sampleGetByName
      sampleSubjectRole sampleCtx "users.read" rfl).1 rfl,
   (empty_roles_amended emptyFs "rbac.yaml" emptyDoc emptyCfg sampleGetByName
      sampleSubjectRole sampleCtx "users.read" rfl).2.1 (by decide) (by decide),
   (empty_roles_amended emptyFs "rbac.yaml" emptyDoc emptyCfg sampleGetByName
      sampleSubjectRole sampleCtx "users.read" rfl).2.2⟩

/-- C9: every member of the role set derived by `load_config` pairs the
uppercased form of a policy key with that key itself; hence the value
carried by any successfully resolved role is a key of the policy mapping,
the per-role policy lookup `policy.get(role.value, {})` in `allow` finds
that role's entry, and its empty-map default branch is unreachable. -/
theorem roles_policy_lookup_total (cfg : RbacConfig) (v0 rname rvalue : String)
    (hroles : cfg.roles = buildRoles (cfg.policy.map Prod.fst))
    (h5 : enumLookup cfg.roles v0 = some (rname, rvalue)) :
    rname = pyUpper rvalue ∧ rvalue ∈ cfg.policy.map Prod.fst ∧
    alistLookup cfg.policy rvalue = some ((alistLookup cfg.policy rvalue).getD []) := by
  have hmem := enumLookup_eq_some h5
  have hup := mem_buildRoles (hroles ▸ hmem.2)
  refine ⟨hup.1, hup.2, ?_⟩
  rcases alistLookup_of_mem_keys hup.2 with ⟨rpol, ha⟩
  rw [ha]
  rfl

/-- C9 witness: the sample configuration's only member resolves to a key
whose policy entry is found. -/
theorem roles_policy_lookup_total_witness :
    "ADMIN" = pyUpper "admin" ∧ "admin" ∈ samplePolicy.map Prod.fst ∧
    alistLookup samplePolicy "admin" = some ((alistLookup samplePolicy "admin").getD []) :=
  roles_policy_lookup_total sampleCfg "admin" "ADMIN" "admin" (by decide) (by decide)

/-- C10: a present-but-empty account-name or role-token header is treated
exactly like an absent one (the corresponding `required` 401), and an
account lookup answering nothing (a falsy value) is account-not-found:
the checks test Python falsiness, not header presence. -/
theorem falsy_headers_equiv (cfg : RbacConfig) (getByName : String → Option Account)
    (subjectRole : Account → String → Except String String) (ctx : RequestCtx)
    (action : String) (account : Account) :
    (authorize cfg getByName subjectRole { ctx with accountName := some "" } action =
       .unauth "Account name is required in x-auth-account header." ∧
     authorize cfg getByName subjectRole { ctx with accountName := none } action =
       .unauth "Account name is required in x-auth-account header.") ∧
    (pyFalsy ctx.accountName = false →
      getByName (ctx.accountName.getD "") = none →
      authorize cfg getByName subjectRole ctx action =
        .unauth "Invalid auth parameters. Account name is not found.") ∧
    (pyFalsy ctx.accountName = false →
      getByName (ctx.accountName.getD "") = some account →
      authorize cfg getByName subjectRole { ctx with roleToken := some "" } action =
        .unauth "Role name is required in x-auth-role header." ∧
      authorize cfg getByName subjectRole { ctx with roleToken := none } action =
        .unauth "Role name is required in x-auth-role header.") := by
  refine ⟨⟨?_, ?_⟩, fun h1 h2 => ?_, fun h1 h2 => ⟨?_, ?_⟩⟩
  · simp [authorize, pyFalsy]
  · simp [authorize, pyFalsy]
  · simp [authorize, h1, h2]
  · simp [authorize, h1, h2, show pyFalsy (some "") = true from rfl]
  · simp [authorize, h1, h2, show pyFalsy (none : Option String) = true from rfl]

/-- C10 witness: empty-string headers behave like missing ones on the
sample request, and button lookup misses are account-not-found. -/
theorem falsy_headers_equiv_witness :
    (authorize sampleCfg sampleGetByName sampleSubjectRole
       { sampleCtx with accountName := some "" } "users.read" =
       .unauth "Account name is required in x-auth-account header." ∧
     authorize sampleCfg sampleGetByName sampleSubjectRole
       { sampleCtx with accountName := none } "users.read" =
       .unauth "Account name is required in x-auth-account header.") ∧
    authorize sampleCfg sampleGetByName sampleSubjectRole
      ⟨some "carol", some "admin", none⟩ "users.read" =
      .unauth "Invalid auth parameters. Account name is not found." ∧
    (authorize sampleCfg sampleGetByName sampleSubjectRole
       { sampleCtx with roleToken := some "" } "users.read" =
       .unauth "Role name is required in x-auth-role header." ∧
     authorize sampleCfg sampleGetByName sampleSubjectRole
       { sampleCtx with roleToken := none } "users.read" =
       .unauth "Role name is required in x-auth-role header.") :=
  ⟨(falsy_headers_equiv sampleCfg sampleGetByName sampleSubjectRole sampleCtx "users.read"
      sampleAccount).1,
   (falsy_headers_equiv sampleCfg sampleGetByName sampleSubjectRole
      ⟨some "carol", some "admin", none⟩ "users.read" sampleAccount).2.1
      (by decide) (by decide),
   (falsy_headers_equiv sampleCfg sampleGetByName sampleSubjectRole sampleCtx "users.read"
      sampleAccount).2.2 (by decide) (by decide)⟩

end FlaskRbac
